import Mathlib

/-!
Shallow embedding of the statistics-persistence tier of nucleoid-backend
(src/src/statistics/database.rs), for checking the natural-language spec
against the code.

The MongoDB store is modelled as explicit state (`DB`): each collection is a
list of documents in insertion order, `find` with `limit(1)` returns the first
matching element, `update_one` / `delete_one` affect the first matching
element, and `insert_one` appends.  Raw BSON documents of the two stats
collections are modelled by `RawDoc`; a document deserializes into the typed
shape (`PlayerGameStats` / `GlobalGameStats`) exactly when all its statistic
values are numeric and, for the player collection, a `uuid` field is present
(`docValid` / `globalDocValid`).  Player uuids and document ids are modelled
as naturals, BSON numeric values as `Int` / `ℚ`.

Every fallible store operation is state-passing (`DB × Except StoreErr _`) so
that writes issued before a failure persist, exactly as they do against the
external store.  Transient store-level write failures (the environment's
prerogative, not the code's) are modelled by an injected fault set on the
increment path.  The notification sink (`controller.send`) is modelled as an
always-reachable append to `DB.reports`, matching the spec's assumption; log
warnings append to `DB.warns`; `DB.events` records the externally visible
store/notification actions in execution order, which the temporal claims are
about.
-/

namespace Nucleoid

/-- A numeric BSON value as stored in a counter document, or a value of an
unexpected (non-numeric) type, which makes the document fail schema
validation. -/
inductive BsonValue where
  | int (i : Int)
  | double (q : ℚ)
  | other (tag : String)
deriving DecidableEq

/-- Raw BSON document of a stats collection: optional driver id `_id`,
optional `uuid` field (present on player-stats documents), `namespace`
field (`ns`), and the `stats` subdocument as an association list. -/
structure RawDoc where
  id? : Option Nat
  uuid? : Option Nat
  ns : String
  stats : List (String × BsonValue)
deriving DecidableEq

/-- model.rs: PlayerProfile (players collection). -/
structure PlayerProfile where
  uuid : Nat
  username : Option String
deriving DecidableEq

/-- BackendError message sent to the controller (the notification sink). -/
structure BackendError where
  title : String
  description : String
  fields : Option (List (String × String))
deriving DecidableEq

/-- Externally visible actions of the corruption-repair path, in execution
order. -/
inductive Event where
  | insertQuarantine (id : Nat)
  | reportSent (backupId : Nat)
  | deleteOriginal (id : Nat)
  | insertFresh (uuid? : Option Nat) (ns : String)
  | warnMissing
deriving DecidableEq

/-- Errors of store operations: schema-shape deserialization failure,
a panic on `Option::unwrap` of a missing `_id`, an injected transient
store failure, and a `$inc` applied to a non-numeric stored value. -/
inductive StoreErr where
  | parse
  | unwrapNone
  | fault
  | nonNumeric
deriving DecidableEq

/-- The whole external state: the four persisted collections, the driver's
id counter, and the observable outputs (reports, warnings, event trace). -/
structure DB where
  players : List PlayerProfile
  playerStats : List RawDoc
  globalStats : List RawDoc
  corruptStats : List RawDoc
  nextId : Nat
  reports : List BackendError
  warns : List String
  events : List Event
deriving DecidableEq

/-- The empty database. -/
def DB.empty : DB := ⟨[], [], [], [], 0, [], [], []⟩

/-- `update_one` semantics: rewrite the first element satisfying `p`. -/
def updateFirst (p : α → Bool) (f : α → α) : List α → List α
  | [] => []
  | x :: xs => if p x then f x :: xs else x :: updateFirst p f xs

/-- `delete_one` semantics: remove the first element satisfying `p`. -/
def deleteFirst (p : α → Bool) : List α → List α
  | [] => []
  | x :: xs => if p x then xs else x :: deleteFirst p xs

/-- Mongo filter of the player-stats collection on `uuid` and `namespace`. -/
def matchPS (uuid : Nat) (ns : String) (d : RawDoc) : Bool :=
  d.uuid? == some uuid && d.ns == ns

/-- Mongo filter of the global-stats collection on `namespace`. -/
def matchGS (ns : String) (d : RawDoc) : Bool :=
  d.ns == ns

/-- Whether a raw player-stats document deserializes into the typed
`PlayerGameStats` shape: a `uuid` is present and every statistic value is
numeric. -/
def docValid (d : RawDoc) : Bool :=
  d.uuid?.isSome && d.stats.all (fun p => match p.2 with | .other _ => false | _ => true)

/-- Whether a raw global-stats document deserializes into the typed
`GlobalGameStats` shape: every statistic value is numeric. -/
def globalDocValid (d : RawDoc) : Bool :=
  d.stats.all (fun p => match p.2 with | .other _ => false | _ => true)

/-- Widening of a stored numeric value to `f64` (`stat.into()`), modelled
over `ℚ`. -/
def BsonValue.toRat : BsonValue → ℚ
  | .int i => i
  | .double q => q
  | .other _ => 0

/-- database.rs `get_player_profile`: `find` with `limit(1)` on the players
collection filtered by uuid. -/
def get_player_profile (db : DB) (uuid : Nat) : Option PlayerProfile :=
  (db.players.filter (fun p => p.uuid == uuid)).head?

/-- database.rs `update_player_profile`: the Profile Store upsert.  Returns
the new state and the returned profile (the operation itself cannot fail in
this model). -/
def update_player_profile (db : DB) (uuid : Nat) (username : Option String) :
    DB × PlayerProfile :=
  match get_player_profile db uuid with
  | some profile =>
    match username with
    | some username =>
      match profile.username with
      | some profile_username =>
        if username ≠ profile_username then
          let players := updateFirst (fun p => p.uuid == uuid)
            (fun p => { p with username := some username }) db.players
          ({ db with players := players }, { profile with username := some username })
        else
          (db, profile)
      | none => (db, profile)
    | none => (db, profile)
  | none =>
    let profile : PlayerProfile := ⟨uuid, username⟩
    ({ db with players := db.players ++ [profile] }, profile)

/-- The players column rewrite performed by the upsert's `update_one`. -/
def renamePlayers (u : Nat) (name : String) (l : List PlayerProfile) : List PlayerProfile :=
  updateFirst (fun q => q.uuid == u) (fun q => { q with username := some name }) l

/-- Modelled from the spec: the statistic delta type of
src/statistics/model.rs is not under src/; per the spec a delta of a
StatBundle "carries enough information to build a type-correct increment
operation (it knows whether it is integer or floating delta)". -/
inductive StatDelta where
  | intD (i : Int)
  | floatD (q : ℚ)
deriving DecidableEq

/-- The delta as a rational number. -/
def StatDelta.toRat : StatDelta → ℚ
  | .intD i => i
  | .floatD q => q

/-- Modelled from the spec: `create_increment_operation` of
src/statistics/model.rs is not under src/; per the spec it builds an atomic
increment-by-delta update (`$inc`) against the named statistic field. -/
structure IncOp where
  stat : String
  delta : StatDelta
deriving DecidableEq

/-- Modelled from the spec: the effect of a `$inc` update on one stored
value — "add delta to existing value, creating the field at zero-plus-delta
if absent"; an integer stays an integer under integer deltas and widens to a
double under a floating delta; `$inc` against a non-numeric stored value is
a store-level error. -/
def incValue : Option BsonValue → StatDelta → Except StoreErr BsonValue
  | none, .intD i => .ok (.int i)
  | none, .floatD q => .ok (.double q)
  | some (.int a), .intD i => .ok (.int (a + i))
  | some (.int a), .floatD q => .ok (.double (a + q))
  | some (.double a), .intD i => .ok (.double (a + i))
  | some (.double a), .floatD q => .ok (.double (a + q))
  | some (.other _), _ => .error .nonNumeric

/-- The stored value of statistic `stat` in a raw document. -/
def getStat (d : RawDoc) (stat : String) : Option BsonValue :=
  ((d.stats.filter (fun p => p.1 == stat)).head?).map (fun p => p.2)

/-- Replace the first binding of `k` in place, or append a new one. -/
def insertReplace (k : α) (v : β) [BEq α] : List (α × β) → List (α × β)
  | [] => [(k, v)]
  | (k₀, v₀) :: xs =>
    if k₀ == k then (k, v) :: xs else (k₀, v₀) :: insertReplace k v xs

/-- Apply one `$inc` update to a raw document. -/
def applyIncDoc (d : RawDoc) (op : IncOp) : Except StoreErr RawDoc := do
  let v ← incValue (getStat d op.stat) op.delta
  .ok { d with stats := insertReplace op.stat v d.stats }

/-- database.rs `get_player_stats` result shape: namespace → stat → value. -/
abbrev PlayerStatsResponse := List (String × List (String × ℚ))

/-- The documents matched by `get_player_stats`'s find filter. -/
def findPlayerStatsDocs (db : DB) (uuid : Nat) (ns? : Option String) : List RawDoc :=
  db.playerStats.filter (fun d =>
    d.uuid? == some uuid && (match ns? with | some n => d.ns == n | none => true))

/-- The typed-cursor fold of `get_player_stats`: deserialize each matched
document in order (a schema-shape failure aborts the read) and insert its
namespace entry into the response map. -/
def foldStats (docs : List RawDoc) : Except StoreErr PlayerStatsResponse :=
  docs.foldlM (fun (acc : PlayerStatsResponse) d =>
    if docValid d then
      .ok (insertReplace d.ns (d.stats.map (fun p => (p.1, p.2.toRat))) acc)
    else
      .error .parse) []

/-- database.rs `get_player_stats`: a missing profile short-circuits to
`none`; otherwise matched documents are folded into the response. -/
def get_player_stats (db : DB) (uuid : Nat) (ns? : Option String) :
    Except StoreErr (Option PlayerStatsResponse) :=
  match get_player_profile db uuid with
  | none => .ok none
  | some _ => do
    let final_stats ← foldStats (findPlayerStatsDocs db uuid ns?)
    .ok (some final_stats)

/-- The CorruptionReport sent to the notification sink: title, free-text
description, and the labeled fields (namespace, scope, backup id). -/
def corruptReport (ns : String) (global : Bool) (backupId : Nat) : BackendError :=
  { title := ":warning: Corrupt stats document",
    description := "corrupt stats description",
    fields := some [("Statistic namespace", ns), ("Global statistic?", toString global),
                    ("Document backup ID", toString backupId)] }

/-- database.rs `handle_broken_document`: clone the corrupt document and
strip the clone's `_id` (the clone `corrupt_document` is built but, as in
the source, it is the original `document` that gets inserted into the
`corrupt_stats` collection, so an existing `_id` is reused; the duplicate-key
failure a reused id could cause at the store is not modelled — insertion is
assumed to succeed); then send a BackendError to the controller (the sink is
assumed reachable, so `send` succeeds).  Returns the new state and
`inserted_id`. -/
def handle_broken_document (db : DB) (document : RawDoc) (ns : String)
    (global : Bool) : DB × Nat :=
  let corrupt_document := { document with id? := none }
  let inserted := match document.id? with
    | some i => (document, i, db.nextId)
    | none => ({ document with id? := some db.nextId }, db.nextId, db.nextId + 1)
  let corrupt_id := inserted.2.1
  let db := { db with
    corruptStats := db.corruptStats ++ [inserted.1],
    nextId := inserted.2.2,
    events := db.events ++ [Event.insertQuarantine corrupt_id] }
  let _unused := corrupt_document
  ({ db with reports := db.reports ++ [corruptReport ns global corrupt_id],
             events := db.events ++ [Event.reportSent corrupt_id] }, corrupt_id)

/-- database.rs `handle_broken_player_stats_document`: re-fetch the raw
document for (uuid, namespace); if present, quarantine it via
`handle_broken_document` and then delete the original by its unwrapped
`_id` (a missing `_id` is the `unwrap` panic); if absent, log a warning and
return success. -/
def handle_broken_player_stats_document (db : DB) (uuid : Nat) (ns : String) :
    DB × Except StoreErr Unit :=
  match (db.playerStats.filter (matchPS uuid ns)).head? with
  | some doc =>
    let res := handle_broken_document db doc ns false
    let db := res.1
    match doc.id? with
    | none => (db, .error .unwrapNone)
    | some i =>
      ({ db with playerStats := deleteFirst (fun d => d.id? == some i) db.playerStats,
                 events := db.events ++ [.deleteOriginal i] }, .ok ())
  | none =>
    ({ db with warns := db.warns ++ ["Missing corrupt document that was there before (player)"],
               events := db.events ++ [.warnMissing] }, .ok ())

/-- database.rs `handle_broken_global_stats_document`: the global-scope
variant of the repair entry point. -/
def handle_broken_global_stats_document (db : DB) (ns : String) :
    DB × Except StoreErr Unit :=
  match (db.globalStats.filter (matchGS ns)).head? with
  | some doc =>
    let res := handle_broken_document db doc ns true
    let db := res.1
    match doc.id? with
    | none => (db, .error .unwrapNone)
    | some i =>
      ({ db with globalStats := deleteFirst (fun d => d.id? == some i) db.globalStats,
                 events := db.events ++ [.deleteOriginal i] }, .ok ())
  | none =>
    ({ db with warns := db.warns ++ ["Missing corrupt document that was there before (global)"],
               events := db.events ++ [.warnMissing] }, .ok ())

/-- database.rs `ensure_player_stats_document`: upsert the profile (no
name), query the typed document with `limit(1)`; a schema-shape failure
runs the repair path; if no (valid) document remains, insert a fresh empty
one. -/
def ensure_player_stats_document (db : DB) (uuid : Nat) (ns : String) :
    DB × Except StoreErr Unit :=
  let db := (update_player_profile db uuid none).1
  let stats := (db.playerStats.filter (matchPS uuid ns)).head?
  let afterCheck : DB × Except StoreErr Bool :=
    match stats with
    | none => (db, .ok true)
    | some d =>
      if docValid d then (db, .ok false)
      else
        match handle_broken_player_stats_document db uuid ns with
        | (db, .ok _) => (db, .ok true)
        | (db, .error e) => (db, .error e)
  match afterCheck with
  | (db, .error e) => (db, .error e)
  | (db, .ok needs_new_document) =>
    if needs_new_document then
      ({ db with playerStats := db.playerStats ++ [⟨some db.nextId, some uuid, ns, []⟩],
                 nextId := db.nextId + 1,
                 events := db.events ++ [.insertFresh (some uuid) ns] }, .ok ())
    else
      (db, .ok ())

/-- database.rs `ensure_global_stats_document`: as the player variant but
without the profile upsert and keyed by namespace alone. -/
def ensure_global_stats_document (db : DB) (ns : String) :
    DB × Except StoreErr Unit :=
  let stats := (db.globalStats.filter (matchGS ns)).head?
  let afterCheck : DB × Except StoreErr Bool :=
    match stats with
    | none => (db, .ok true)
    | some d =>
      if globalDocValid d then (db, .ok false)
      else
        match handle_broken_global_stats_document db ns with
        | (db, .ok _) => (db, .ok true)
        | (db, .error e) => (db, .error e)
  match afterCheck with
  | (db, .error e) => (db, .error e)
  | (db, .ok needs_new_document) =>
    if needs_new_document then
      ({ db with globalStats := db.globalStats ++ [⟨some db.nextId, none, ns, []⟩],
                 nextId := db.nextId + 1,
                 events := db.events ++ [.insertFresh none ns] }, .ok ())
    else
      (db, .ok ())

/-- model.rs: the per-bundle statistics payload (`bundle.stats`): per-player
deltas (a map, modelled as an ordered association list since the source's
HashMap iteration order is unspecified) and optional network-wide deltas. -/
structure GameStats where
  players : List (Nat × List (String × StatDelta))
  global : Option (List (String × StatDelta))
deriving DecidableEq

/-- model.rs: GameStatsBundle — one namespace plus its statistics payload. -/
structure GameStatsBundle where
  ns : String
  stats : GameStats
deriving DecidableEq

/-- A set of injected transient store failures: player increments
(uuid, stat name) that the environment makes fail.  The source treats every
store write as fallible; this is the model's fault oracle for the
"simulated store error" scenarios. -/
abbrev FaultSet := List (Nat × String)

/-- `update_one` with a `$inc` on the player-stats collection: an injected
fault fails the write; otherwise the first document matching
(uuid, namespace) is updated (no match is a successful no-op, as for
mongo's `update_one`). -/
def player_stats_update_one (faults : FaultSet) (db : DB) (uuid : Nat)
    (ns : String) (stat_name : String) (stat : StatDelta) :
    DB × Except StoreErr Unit :=
  if (uuid, stat_name) ∈ faults then (db, .error .fault)
  else
    match (db.playerStats.filter (matchPS uuid ns)).head? with
    | none => (db, .ok ())
    | some d =>
      match applyIncDoc d ⟨stat_name, stat⟩ with
      | .error e => (db, .error e)
      | .ok d₁ =>
        ({ db with playerStats :=
            updateFirst (matchPS uuid ns) (fun _ => d₁) db.playerStats }, .ok ())

/-- `update_one` with a `$inc` on the global-stats collection. -/
def global_stats_update_one (db : DB) (ns : String) (stat_name : String)
    (stat : StatDelta) : DB × Except StoreErr Unit :=
  match (db.globalStats.filter (matchGS ns)).head? with
  | none => (db, .ok ())
  | some d =>
    match applyIncDoc d ⟨stat_name, stat⟩ with
    | .error e => (db, .error e)
    | .ok d₁ =>
      ({ db with globalStats :=
          updateFirst (matchGS ns) (fun _ => d₁) db.globalStats }, .ok ())

/-- The inner loop of `upload_stats_bundle` for one player: each increment
in turn, stopping at the first error (`?`). -/
def uploadPlayerIncs (faults : FaultSet) (db : DB) (uuid : Nat) (ns : String) :
    List (String × StatDelta) → DB × Except StoreErr Unit
  | [] => (db, .ok ())
  | (stat_name, stat) :: rest =>
    match player_stats_update_one faults db uuid ns stat_name stat with
    | (db, .ok _) => uploadPlayerIncs faults db uuid ns rest
    | (db, .error e) => (db, .error e)

/-- The body of `upload_stats_bundle`'s per-player loop for one (player,
stat-deltas) pair: ensure the document, then apply that player's
increments; the first error propagates (`?`), leaving earlier writes in
place. -/
def processPlayer (faults : FaultSet) (db : DB) (ns : String) (player : Nat)
    (stats : List (String × StatDelta)) : DB × Except StoreErr Unit :=
  match ensure_player_stats_document db player ns with
  | (db, .error e) => (db, .error e)
  | (db, .ok _) => uploadPlayerIncs faults db player ns stats

/-- The per-player loop of `upload_stats_bundle`: each (player,
stat-deltas) pair in iteration order; the first error aborts the whole
loop (`?`), leaving earlier writes in place. -/
def uploadPlayers (faults : FaultSet) (db : DB) (ns : String) :
    List (Nat × List (String × StatDelta)) → DB × Except StoreErr Unit
  | [] => (db, .ok ())
  | (player, stats) :: rest =>
    match processPlayer faults db ns player stats with
    | (db, .error e) => (db, .error e)
    | (db, .ok _) => uploadPlayers faults db ns rest

/-- The global loop of `upload_stats_bundle`. -/
def uploadGlobalIncs (db : DB) (ns : String) :
    List (String × StatDelta) → DB × Except StoreErr Unit
  | [] => (db, .ok ())
  | (stat_name, stat) :: rest =>
    match global_stats_update_one db ns stat_name stat with
    | (db, .ok _) => uploadGlobalIncs db ns rest
    | (db, .error e) => (db, .error e)

/-- database.rs `upload_stats_bundle`: per-player section first, then the
optional network-wide section; any error propagates immediately (`?`) and
the bundle fails as a whole, without rollback of earlier writes. -/
def upload_stats_bundle (faults : FaultSet) (db : DB) (bundle : GameStatsBundle) :
    DB × Except StoreErr Unit :=
  match uploadPlayers faults db bundle.ns bundle.stats.players with
  | (db, .error e) => (db, .error e)
  | (db, .ok _) =>
    match bundle.stats.global with
    | none => (db, .ok ())
    | some global =>
      match ensure_global_stats_document db bundle.ns with
      | (db, .error e) => (db, .error e)
      | (db, .ok _) => uploadGlobalIncs db bundle.ns global

/-- The mutating requests a client can send to the controller, as delivered
one at a time by the mailbox; read-only requests do not change `DB`.  An
upload carries its fault oracle. -/
inductive Op where
  | updateProfile (uuid : Nat) (username : String)
  | uploadBundle (faults : FaultSet) (bundle : GameStatsBundle)
deriving DecidableEq

/-- The state transition of one request (the handlers discard errors after
logging, so the state component is all that remains). -/
def applyOp (db : DB) : Op → DB
  | .updateProfile uuid username => (update_player_profile db uuid (some username)).1
  | .uploadBundle faults bundle => (upload_stats_bundle faults db bundle).1

/-- A whole request history applied in arrival order. -/
def applyOps (db : DB) (ops : List Op) : DB :=
  ops.foldl applyOp db

/-! Derived notions the claims quantify over. -/

/-- The live counter documents of one (player, namespace) pair. -/
def liveDocs (db : DB) (uuid : Nat) (ns : String) : List RawDoc :=
  db.playerStats.filter (matchPS uuid ns)

/-- The live counter documents of one network-wide namespace. -/
def liveGlobalDocs (db : DB) (ns : String) : List RawDoc :=
  db.globalStats.filter (matchGS ns)

/-- The identities that own a profile row. -/
def profileUuids (db : DB) : List Nat :=
  db.players.map PlayerProfile.uuid

/-- Referential linkage: every player counter document carries a `uuid` that
belongs to an existing profile. -/
def profileLinked (db : DB) : Prop :=
  ∀ d ∈ db.playerStats, ∃ u, d.uuid? = some u ∧ u ∈ profileUuids db

/-- Every document of a collection carries an `_id` (mongo guarantees this
for stored documents). -/
def idsPresent (l : List RawDoc) : Prop :=
  ∀ d ∈ l, d.id?.isSome = true

/-- No two documents of a collection share an `_id` (mongo's unique-index
guarantee on `_id`). -/
def idsDistinct (l : List RawDoc) : Prop :=
  l.Pairwise (fun a b => a.id? ≠ b.id?)

/-- The spec's data-model invariant for player counters: at most one live
document per (identity, namespace) pair, stated as pairwise distinct keys. -/
def keysDistinctPS (l : List RawDoc) : Prop :=
  l.Pairwise (fun a b => ¬(a.uuid? = b.uuid? ∧ a.ns = b.ns))

/-- The spec's data-model invariant for network counters: at most one live
document per namespace. -/
def keysDistinctGS (l : List RawDoc) : Prop :=
  l.Pairwise (fun a b => a.ns ≠ b.ns)

/-- The well-formedness assumptions on a store state under which the
lifecycle claims are stated: ids present and unique in both stats
collections, fresh ids available from `nextId`, and at most one live
document per key. -/
structure StoreInv (db : DB) : Prop where
  psIds : idsPresent db.playerStats
  psIdsD : idsDistinct db.playerStats
  psKeys : keysDistinctPS db.playerStats
  gsIds : idsPresent db.globalStats
  gsIdsD : idsDistinct db.globalStats
  gsKeys : keysDistinctGS db.globalStats

/-- The single-statistic value evolution under `$inc`, as a total step
function (an `other` value is absorbing; the increment path never reaches
it starting from an absent field). -/
def stepInc : Option BsonValue → StatDelta → Option BsonValue
  | none, .intD i => some (.int i)
  | none, .floatD q => some (.double q)
  | some (.int a), .intD i => some (.int (a + i))
  | some (.int a), .floatD q => some (.double (a + q))
  | some (.double a), .intD i => some (.double (a + i))
  | some (.double a), .floatD q => some (.double (a + q))
  | some (.other t), _ => some (.other t)

/-- Numeric reading of an optional stored value; an absent field reads as
zero. -/
def ratOfOpt (v : Option BsonValue) : ℚ :=
  (v.map BsonValue.toRat).getD 0

/-- A value is not of the unexpected (`other`) shape. -/
def notOther (v : Option BsonValue) : Prop :=
  ∀ t, v ≠ some (.other t)

/-- A sequence of `$inc` updates against the single statistic `stat` of a
document, as issued by `upload_stats_bundle`, stopping at the first
error. -/
def applyIncs (d : RawDoc) (stat : String) (ds : List StatDelta) :
    Except StoreErr RawDoc :=
  ds.foldlM (fun d δ => applyIncDoc d ⟨stat, δ⟩) d

/-- The stats field holding at most the single statistic `stat`. -/
def singleStats (stat : String) : Option BsonValue → List (String × BsonValue)
  | none => []
  | some v => [(stat, v)]

/-! Concrete test fixtures used by several claims. -/

/-- A player-stats document whose statistic value has an unexpected type, so
it fails schema validation; it carries `_id` 5. -/
def brokenDoc : RawDoc := ⟨some 5, some 1, "lobby", [("kills", BsonValue.other "text")]⟩

/-- A database holding only `brokenDoc`. -/
def brokenDB : DB := { DB.empty with playerStats := [brokenDoc], nextId := 10 }

/-- A database holding one profile whose display name is `Alice`. -/
def aliceDB : DB := { DB.empty with players := [⟨1, some "Alice"⟩] }

/-- A two-player bundle for namespace `survival`, player 2 first in
iteration order. -/
def failBundle : GameStatsBundle :=
  ⟨"survival", ⟨[(2, [("kills", StatDelta.intD 1)]), (1, [("kills", StatDelta.intD 1)])],
    none⟩⟩

/-- A fault oracle that makes player 2's `kills` increment fail. -/
def failFaults : FaultSet := [(2, "kills")]

/-- The store after player 1's bundle entry (ensure plus one increment)
runs on the empty store. -/
def dbA : DB :=
  ⟨[⟨1, none⟩], [⟨some 0, some 1, "survival", [("kills", BsonValue.int 1)]⟩],
   [], [], 1, [], [], [Event.insertFresh (some 1) "survival"]⟩

/-- The store after player 2's entry then runs and fails at its increment:
the ensure part went through, the increment did not. -/
def dbAB : DB :=
  ⟨[⟨1, none⟩, ⟨2, none⟩],
   [⟨some 0, some 1, "survival", [("kills", BsonValue.int 1)]⟩,
    ⟨some 1, some 2, "survival", []⟩],
   [], [], 2, [], [],
   [Event.insertFresh (some 1) "survival", Event.insertFresh (some 2) "survival"]⟩

/-- A database holding one profile that has no display name. -/
def noNameDB : DB := { DB.empty with players := [⟨1, none⟩] }

/-! Helper lemmas about the list-level store primitives. -/

theorem updateFirst_of_not_exists (p : α → Bool) (f : α → α) (l : List α)
    (h : ∀ x ∈ l, p x = false) : updateFirst p f l = l := by
  induction l with
  | nil => rfl
  | cons x xs ih =>
    simp only [updateFirst, h x (List.mem_cons_self x xs)]
    simp only [Bool.false_eq_true, if_false, List.cons.injEq, true_and]
    exact ih (fun y hy => h y (List.mem_cons_of_mem x hy))

theorem deleteFirst_sublist (p : α → Bool) (l : List α) :
    (deleteFirst p l).Sublist l := by
  induction l with
  | nil => exact List.Sublist.refl _
  | cons x xs ih =>
    simp only [deleteFirst]
    by_cases h : p x
    · simp [h]
    · simp only [h, if_false]
      exact List.Sublist.cons₂ x ih

theorem mem_updateFirst (p : α → Bool) (f : α → α) (l : List α) (x : α)
    (h : x ∈ updateFirst p f l) : x ∈ l ∨ ∃ y ∈ l, x = f y := by
  induction l with
  | nil => cases h
  | cons a as ih =>
    simp only [updateFirst] at h
    by_cases hp : p a
    · simp only [hp, if_true, List.mem_cons] at h
      rcases h with h | h
      · exact Or.inr ⟨a, List.mem_cons_self a as, h⟩
      · exact Or.inl (List.mem_cons_of_mem a h)
    · simp only [hp, Bool.false_eq_true, if_false, List.mem_cons] at h
      rcases h with h | h
      · exact Or.inl (h ▸ List.mem_cons_self a as)
      · rcases ih h with h | ⟨y, hy, hxy⟩
        · exact Or.inl (List.mem_cons_of_mem a h)
        · exact Or.inr ⟨y, List.mem_cons_of_mem a hy, hxy⟩

theorem mem_deleteFirst (p : α → Bool) (l : List α) (x : α)
    (h : x ∈ deleteFirst p l) : x ∈ l :=
  (deleteFirst_sublist p l).mem h

/-- Decomposition of `delete_one` by `_id` under pairwise-distinct ids: the
document with the given id is removed, the rest keeps its order. -/
theorem deleteFirst_id_decomp (l : List RawDoc) (d : RawDoc) (i : Nat)
    (hpw : l.Pairwise (fun a b => a.id? ≠ b.id?)) (hm : d ∈ l) (hi : d.id? = some i) :
    ∃ l₁ l₂, l = l₁ ++ d :: l₂ ∧
      deleteFirst (fun x => x.id? == some i) l = l₁ ++ l₂ ∧
      ∀ x ∈ l₁, x.id? ≠ some i := by
  induction l with
  | nil => cases hm
  | cons a as ih =>
    rcases List.pairwise_cons.mp hpw with ⟨ha, has⟩
    by_cases hq : a.id? = some i
    · have had : d = a := by
        rcases List.mem_cons.mp hm with h | h
        · exact h
        · exact absurd (hq.trans hi.symm) (ha d h)
      refine ⟨[], as, by simp [had], ?_, by simp⟩
      simp [deleteFirst, hq]
    · have hd : d ∈ as := by
        rcases List.mem_cons.mp hm with h | h
        · exact absurd (h ▸ hi) hq
        · exact h
      rcases ih has hd with ⟨l₁, l₂, hsplit, hdel, hnone⟩
      refine ⟨a :: l₁, l₂, by simp [hsplit], ?_, ?_⟩
      · simp only [deleteFirst, beq_iff_eq, hq, if_false]
        simp [hdel]
      · intro x hx
        rcases List.mem_cons.mp hx with h | h
        · exact h ▸ hq
        · exact hnone x h

/-- First element of the filtered list after `updateFirst`, when the rewrite
preserves the filter. -/
theorem filter_updateFirst_head (p : α → Bool) (f : α → α) (l : List α)
    (hf : ∀ a, p a = true → p (f a) = true) :
    ((updateFirst p f l).filter p).head? = ((l.filter p).head?).map f := by
  induction l with
  | nil => rfl
  | cons x xs ih =>
    by_cases hx : p x
    · simp [updateFirst, hx, List.filter_cons, hf x hx]
    · simp [updateFirst, hx, List.filter_cons, ih]

theorem update_player_profile_playerStats (db : DB) (u : Nat) (s : Option String) :
    ((update_player_profile db u s).1).playerStats = db.playerStats := by
  unfold update_player_profile
  (repeat' split) <;> rfl

theorem update_player_profile_globalStats (db : DB) (u : Nat) (s : Option String) :
    ((update_player_profile db u s).1).globalStats = db.globalStats := by
  unfold update_player_profile
  (repeat' split) <;> rfl

theorem update_player_profile_corruptStats (db : DB) (u : Nat) (s : Option String) :
    ((update_player_profile db u s).1).corruptStats = db.corruptStats := by
  unfold update_player_profile
  (repeat' split) <;> rfl

theorem update_player_profile_nextId (db : DB) (u : Nat) (s : Option String) :
    ((update_player_profile db u s).1).nextId = db.nextId := by
  unfold update_player_profile
  (repeat' split) <;> rfl

theorem update_player_profile_reports (db : DB) (u : Nat) (s : Option String) :
    ((update_player_profile db u s).1).reports = db.reports := by
  unfold update_player_profile
  (repeat' split) <;> rfl

theorem update_player_profile_warns (db : DB) (u : Nat) (s : Option String) :
    ((update_player_profile db u s).1).warns = db.warns := by
  unfold update_player_profile
  (repeat' split) <;> rfl

theorem update_player_profile_events (db : DB) (u : Nat) (s : Option String) :
    ((update_player_profile db u s).1).events = db.events := by
  unfold update_player_profile
  (repeat' split) <;> rfl

/-- Branch equation: profile exists, no supplied name; the upsert performs
no write at all and returns the stored profile. -/
theorem upp_eq_none_supplied (db : DB) (u : Nat) (p : PlayerProfile)
    (h : get_player_profile db u = some p) :
    update_player_profile db u none = (db, p) := by
  unfold update_player_profile
  rw [h]

/-- Branch equation: profile exists but has no stored name; the supplied
name is ignored. -/
theorem upp_eq_no_stored_name (db : DB) (u : Nat) (p : PlayerProfile) (name : String)
    (h : get_player_profile db u = some p) (hu : p.username = none) :
    update_player_profile db u (some name) = (db, p) := by
  unfold update_player_profile
  rw [h]
  simp only [hu]

/-- Branch equation: profile exists with the same stored name; no write. -/
theorem upp_eq_same_name (db : DB) (u : Nat) (p : PlayerProfile) (name : String)
    (h : get_player_profile db u = some p) (hu : p.username = some name) :
    update_player_profile db u (some name) = (db, p) := by
  unfold update_player_profile
  rw [h]
  simp [hu]

/-- Branch equation: profile exists with a different stored name; the name
is persisted with `update_one` and the updated profile is returned. -/
theorem upp_eq_rename (db : DB) (u : Nat) (p : PlayerProfile) (stored name : String)
    (h : get_player_profile db u = some p) (hu : p.username = some stored)
    (hne : name ≠ stored) :
    update_player_profile db u (some name) =
      ({ db with players := renamePlayers u name db.players },
       { p with username := some name }) := by
  unfold update_player_profile renamePlayers
  rw [h]
  simp [hu, hne]

/-- Branch equation: no profile exists; one is created with the supplied
(possibly absent) name. -/
theorem upp_eq_insert (db : DB) (u : Nat) (s : Option String)
    (h : get_player_profile db u = none) :
    update_player_profile db u s =
      ({ db with players := db.players ++ [⟨u, s⟩] }, ⟨u, s⟩) := by
  unfold update_player_profile
  rw [h]

/-- Rewriting one profile's name in place does not change which profile the
uuid lookup finds, beyond the rewrite itself. -/
theorem get_player_profile_updateFirst (db : DB) (u : Nat) (name : String) :
    get_player_profile ({ db with players := renamePlayers u name db.players }) u =
      (get_player_profile db u).map (fun q => { q with username := some name }) := by
  unfold get_player_profile renamePlayers
  exact filter_updateFirst_head _ _ _ (fun a ha => ha)

/-- After any upsert, a profile for the upserted identity exists. -/
theorem get_player_profile_after_upsert (db : DB) (u : Nat) (s : Option String) :
    ∃ p, get_player_profile ((update_player_profile db u s).1) u = some p := by
  cases h : get_player_profile db u with
  | some p =>
    cases s with
    | none => rw [upp_eq_none_supplied db u p h]; exact ⟨p, h⟩
    | some name =>
      cases hu : p.username with
      | none => rw [upp_eq_no_stored_name db u p name h hu]; exact ⟨p, h⟩
      | some stored =>
        by_cases hne : name = stored
        · rw [hne, upp_eq_same_name db u p stored h hu]; exact ⟨p, h⟩
        · rw [upp_eq_rename db u p stored name h hu hne]
          refine ⟨{ p with username := some name }, ?_⟩
          rw [get_player_profile_updateFirst, h]
          rfl
  | none =>
    rw [upp_eq_insert db u s h]
    refine ⟨⟨u, s⟩, ?_⟩
    unfold get_player_profile at h ⊢
    simp [List.filter_append, List.head?_eq_none_iff.mp h]

/-- The name rewrite of the upsert preserves the uuid column. -/
theorem renamePlayers_map_uuid (u : Nat) (name : String) (l : List PlayerProfile) :
    (renamePlayers u name l).map PlayerProfile.uuid = l.map PlayerProfile.uuid := by
  induction l with
  | nil => rfl
  | cons x xs ih =>
    by_cases hx : x.uuid == u
    · simp [renamePlayers, updateFirst, hx]
    · simp only [renamePlayers, updateFirst] at ih ⊢
      simp [hx, ih]

/-- Profiles are never removed: any identity with a profile keeps one
across an upsert. -/
theorem profileUuids_mono_upsert (db : DB) (u : Nat) (s : Option String) (v : Nat)
    (h : v ∈ profileUuids db) : v ∈ profileUuids ((update_player_profile db u s).1) := by
  cases hg : get_player_profile db u with
  | some p =>
    cases s with
    | none => rw [upp_eq_none_supplied db u p hg]; exact h
    | some name =>
      cases hu : p.username with
      | none => rw [upp_eq_no_stored_name db u p name hg hu]; exact h
      | some stored =>
        by_cases hne : name = stored
        · rw [hne, upp_eq_same_name db u p stored hg hu]; exact h
        · rw [upp_eq_rename db u p stored name hg hu hne]
          unfold profileUuids at h ⊢
          simp only
          rw [renamePlayers_map_uuid]
          exact h
  | none =>
    rw [upp_eq_insert db u s hg]
    unfold profileUuids at h ⊢
    simp only [List.map_append]
    exact List.mem_append_left _ h

/-- Case equation of `ensure_player_stats_document`: the typed find
succeeds on a valid document — nothing beyond the profile upsert happens. -/
theorem ensure_player_valid (db : DB) (u : Nat) (ns : String) (d : RawDoc)
    (hd : (db.playerStats.filter (matchPS u ns)).head? = some d)
    (hv : docValid d = true) :
    ensure_player_stats_document db u ns = ((update_player_profile db u none).1, .ok ()) := by
  unfold ensure_player_stats_document
  simp [update_player_profile_playerStats, hd, hv]

/-- Case equation of `ensure_player_stats_document`: no document matches —
a fresh empty document is inserted. -/
theorem ensure_player_absent (db : DB) (u : Nat) (ns : String)
    (hd : (db.playerStats.filter (matchPS u ns)).head? = none) :
    ensure_player_stats_document db u ns =
      ({ (update_player_profile db u none).1 with
          playerStats := db.playerStats ++ [⟨some db.nextId, some u, ns, []⟩],
          nextId := db.nextId + 1,
          events := db.events ++ [Event.insertFresh (some u) ns] }, .ok ()) := by
  unfold ensure_player_stats_document
  simp [hd, update_player_profile_playerStats, update_player_profile_nextId,
    update_player_profile_events]

/-- Case equation of `ensure_player_stats_document`: the typed find hits a
schema-shape failure and the corrupt document carries an `_id` — the full
repair path runs (quarantine insert, report, delete), then a fresh empty
document is inserted. -/
theorem ensure_player_corrupt (db : DB) (u : Nat) (ns : String) (d : RawDoc) (i : Nat)
    (hd : (db.playerStats.filter (matchPS u ns)).head? = some d)
    (hv : docValid d = false) (hi : d.id? = some i) :
    ensure_player_stats_document db u ns =
      ({ (update_player_profile db u none).1 with
          playerStats := deleteFirst (fun x => x.id? == some i) db.playerStats
            ++ [⟨some db.nextId, some u, ns, []⟩],
          corruptStats := db.corruptStats ++ [d],
          nextId := db.nextId + 1,
          reports := db.reports ++ [corruptReport ns false i],
          events := db.events ++ [Event.insertQuarantine i, Event.reportSent i,
            Event.deleteOriginal i, Event.insertFresh (some u) ns] }, .ok ()) := by
  unfold ensure_player_stats_document handle_broken_player_stats_document
    handle_broken_document
  simp [hd, hv, hi, update_player_profile_playerStats, update_player_profile_nextId,
    update_player_profile_events, update_player_profile_corruptStats,
    update_player_profile_reports, update_player_profile_warns,
    update_player_profile_globalStats]

/-- Case equation of `ensure_global_stats_document`: valid document found —
no-op. -/
theorem ensure_global_valid (db : DB) (ns : String) (d : RawDoc)
    (hd : (db.globalStats.filter (matchGS ns)).head? = some d)
    (hv : globalDocValid d = true) :
    ensure_global_stats_document db ns = (db, .ok ()) := by
  unfold ensure_global_stats_document
  simp [hd, hv]

/-- Case equation of `ensure_global_stats_document`: no document matches —
a fresh empty document is inserted. -/
theorem ensure_global_absent (db : DB) (ns : String)
    (hd : (db.globalStats.filter (matchGS ns)).head? = none) :
    ensure_global_stats_document db ns =
      ({ db with
          globalStats := db.globalStats ++ [⟨some db.nextId, none, ns, []⟩],
          nextId := db.nextId + 1,
          events := db.events ++ [Event.insertFresh none ns] }, .ok ()) := by
  unfold ensure_global_stats_document
  simp [hd]

/-- Case equation of `ensure_global_stats_document`: schema-shape failure on
a document that carries an `_id` — repair, then fresh insert. -/
theorem ensure_global_corrupt (db : DB) (ns : String) (d : RawDoc) (i : Nat)
    (hd : (db.globalStats.filter (matchGS ns)).head? = some d)
    (hv : globalDocValid d = false) (hi : d.id? = some i) :
    ensure_global_stats_document db ns =
      ({ db with
          globalStats := deleteFirst (fun x => x.id? == some i) db.globalStats
            ++ [⟨some db.nextId, none, ns, []⟩],
          corruptStats := db.corruptStats ++ [d],
          nextId := db.nextId + 1,
          reports := db.reports ++ [corruptReport ns true i],
          events := db.events ++ [Event.insertQuarantine i, Event.reportSent i,
            Event.deleteOriginal i, Event.insertFresh none ns] }, .ok ()) := by
  unfold ensure_global_stats_document handle_broken_global_stats_document
    handle_broken_document
  simp [hd, hv, hi]

/-- Claim C1 (code_bug evidence): at the failing input — a corrupt document
with `_id` 5 — the copy inserted into the quarantine collection is the
original document verbatim, `_id` included; its identity equals the corrupt
original's identity 5 instead of a fresh one, and the reported backup id is
that same original id. -/
theorem C1_quarantine_keeps_original_id :
    (handle_broken_document brokenDB brokenDoc "lobby" false).1.corruptStats = [brokenDoc]
    ∧ brokenDoc.id? = some 5
    ∧ (handle_broken_document brokenDB brokenDoc "lobby" false).2 = 5 := by
  refine ⟨rfl, rfl, rfl⟩

/-- Claim C2 (counterexample): for the concrete corrupt document with `_id`
5, the repair path's event trace is quarantine-insert, then report, then
delete, then fresh-insert — the CorruptionReport is emitted strictly before
the original document is deleted, not after. -/
theorem C2_report_emitted_before_delete :
    (ensure_player_stats_document brokenDB 1 "lobby").1.events =
      [Event.insertQuarantine 5, Event.reportSent 5, Event.deleteOriginal 5,
       Event.insertFresh (some 1) "lobby"]
    ∧ List.indexOf (Event.reportSent 5)
        ((ensure_player_stats_document brokenDB 1 "lobby").1.events) <
      List.indexOf (Event.deleteOriginal 5)
        ((ensure_player_stats_document brokenDB 1 "lobby").1.events) := by
  refine ⟨rfl, by decide⟩

/-- Claim C4 (counterexample): a profile exists for uuid 1 but its stored
display name is absent; the supplied name `Alice` differs from the stored
one, yet the upsert performs no write (the state is returned unchanged) and
returns the stored profile, not an updated one. -/
theorem C4_rename_ignored_without_stored_name :
    get_player_profile noNameDB 1 = some ⟨1, none⟩
    ∧ update_player_profile noNameDB 1 (some "Alice") = (noNameDB, ⟨1, none⟩) := by
  refine ⟨rfl, rfl⟩

/-- Claim C2 (amended): for every corrupt document that is re-fetched and
found present (with its `_id`), the repair path executes in this order: the
quarantine copy is inserted first, then the CorruptionReport is emitted to
the notification sink, then the original document is deleted from its
source collection; control then returns to ensure_document, which creates
a fresh empty document. -/
theorem C2_repair_order_theorem (db : DB) (u : Nat) (ns : String) (d : RawDoc) (i : Nat)
    (hd : (db.playerStats.filter (matchPS u ns)).head? = some d)
    (hv : docValid d = false) (hi : d.id? = some i) :
    (ensure_player_stats_document db u ns).2 = .ok ()
    ∧ (ensure_player_stats_document db u ns).1.events =
        db.events ++ [Event.insertQuarantine i, Event.reportSent i,
          Event.deleteOriginal i, Event.insertFresh (some u) ns] := by
  rw [ensure_player_corrupt db u ns d i hd hv hi]
  exact ⟨rfl, rfl⟩

/-- Witness for C2's amended theorem at the concrete corrupt fixture. -/
theorem C2_repair_order_witness :
    (ensure_player_stats_document brokenDB 1 "lobby").2 = .ok ()
    ∧ (ensure_player_stats_document brokenDB 1 "lobby").1.events =
        brokenDB.events ++ [Event.insertQuarantine 5, Event.reportSent 5,
          Event.deleteOriginal 5, Event.insertFresh (some 1) "lobby"] :=
  C2_repair_order_theorem brokenDB 1 "lobby" brokenDoc 5 rfl rfl rfl

/-- Claim C8: if the schema-agnostic re-fetch finds no document, the repair
logs a warning and returns success with the collections untouched; and
whenever the typed find fails on a present corrupt document, the calling
ensure_document still ends by inserting a fresh empty document for the
(key, namespace). -/
theorem C8_missing_document_tolerated (db : DB) (u : Nat) (ns : String) :
    ((db.playerStats.filter (matchPS u ns)).head? = none →
      handle_broken_player_stats_document db u ns =
        ({ db with
            warns := db.warns ++ ["Missing corrupt document that was there before (player)"],
            events := db.events ++ [Event.warnMissing] }, .ok ()))
    ∧ (∀ d i, (db.playerStats.filter (matchPS u ns)).head? = some d →
        docValid d = false → d.id? = some i →
        (ensure_player_stats_document db u ns).2 = .ok ()
        ∧ (ensure_player_stats_document db u ns).1.playerStats.getLast? =
            some ⟨some db.nextId, some u, ns, []⟩) := by
  constructor
  · intro hd
    unfold handle_broken_player_stats_document
    simp [hd]
  · intro d i hd hv hi
    rw [ensure_player_corrupt db u ns d i hd hv hi]
    exact ⟨rfl, List.getLast?_concat _⟩

/-- Witness for C8 at the empty store (vanished document) and at the
corrupt fixture (repair then fresh insert). -/
theorem C8_missing_document_tolerated_witness :
    handle_broken_player_stats_document DB.empty 1 "lobby" =
      ({ DB.empty with
          warns := DB.empty.warns ++ ["Missing corrupt document that was there before (player)"],
          events := DB.empty.events ++ [Event.warnMissing] }, .ok ())
    ∧ ((ensure_player_stats_document brokenDB 1 "lobby").2 = .ok ()
      ∧ (ensure_player_stats_document brokenDB 1 "lobby").1.playerStats.getLast? =
          some ⟨some 10, some 1, "lobby", []⟩) :=
  ⟨(C8_missing_document_tolerated DB.empty 1 "lobby").1 rfl,
   (C8_missing_document_tolerated brokenDB 1 "lobby").2 brokenDoc 5 rfl rfl rfl⟩

/-- Claim C10: whenever every stored document carries an `_id`, the repair
entry points never hit the `unwrap` panic on the re-fetched document's
`_id`; both return success. -/
theorem C10_unwrap_id_safe (db : DB) (u : Nat) (ns : String)
    (hp : idsPresent db.playerStats) (hg : idsPresent db.globalStats) :
    (handle_broken_player_stats_document db u ns).2 = .ok ()
    ∧ (handle_broken_global_stats_document db ns).2 = .ok () := by
  constructor
  · cases hd : (db.playerStats.filter (matchPS u ns)).head? with
    | none =>
      unfold handle_broken_player_stats_document
      simp [hd]
    | some d =>
      have hdm : d ∈ db.playerStats :=
        List.mem_of_mem_filter (List.mem_of_mem_head? (Option.mem_def.mpr hd))
      obtain ⟨i, hi⟩ := Option.isSome_iff_exists.mp (hp d hdm)
      unfold handle_broken_player_stats_document
      simp [hd, hi]
  · cases hd : (db.globalStats.filter (matchGS ns)).head? with
    | none =>
      unfold handle_broken_global_stats_document
      simp [hd]
    | some d =>
      have hdm : d ∈ db.globalStats :=
        List.mem_of_mem_filter (List.mem_of_mem_head? (Option.mem_def.mpr hd))
      obtain ⟨i, hi⟩ := Option.isSome_iff_exists.mp (hg d hdm)
      unfold handle_broken_global_stats_document
      simp [hd, hi]

/-- Witness for C10 at the corrupt fixture, whose documents all carry ids. -/
theorem C10_unwrap_id_safe_witness :
    (handle_broken_player_stats_document brokenDB 1 "lobby").2 = .ok ()
    ∧ (handle_broken_global_stats_document brokenDB "lobby").2 = .ok () :=
  C10_unwrap_id_safe brokenDB 1 "lobby"
    (by intro d hd; simp [brokenDB, brokenDoc, DB.empty] at hd; simp [hd, brokenDoc])
    (by intro d hd; simp [brokenDB, DB.empty] at hd)

/-- Claim C6: a missing profile short-circuits GetStats to absent (`none`),
while a present profile with no counter documents yields the empty
mapping — an unknown player and a known player with no stats are
distinguished. -/
theorem C6_missing_player_semantics (db : DB) (u : Nat) (ns? : Option String) :
    (get_player_profile db u = none → get_player_stats db u ns? = .ok none)
    ∧ (∀ p, get_player_profile db u = some p → findPlayerStatsDocs db u ns? = [] →
        get_player_stats db u ns? = .ok (some [])) := by
  constructor
  · intro h
    unfold get_player_stats
    simp [h]
  · intro p h hdocs
    unfold get_player_stats
    simp [h, hdocs, foldStats]

/-- Witness for C6: unknown uuid 0 on the empty store versus known uuid 1
with no documents. -/
theorem C6_missing_player_semantics_witness :
    get_player_stats DB.empty 0 none = .ok none
    ∧ get_player_stats aliceDB 1 none = .ok (some []) :=
  ⟨(C6_missing_player_semantics DB.empty 0 none).1 rfl,
   (C6_missing_player_semantics aliceDB 1 none).2 ⟨1, some "Alice"⟩ rfl rfl⟩

/-- Claim C4 (amended): if a profile exists and its stored display name is
present and differs from the supplied one, the upsert persists the new
name and returns the updated profile; if the supplied name is absent,
equal to the stored one, or the stored profile has no name, the stored
profile is returned unchanged with no write; if no profile exists, one is
created with the supplied (possibly absent) name and returned. -/
theorem C4_upsert_behaviour (db : DB) (u : Nat) :
    (∀ p stored name, get_player_profile db u = some p → p.username = some stored →
      name ≠ stored →
      (update_player_profile db u (some name)).2 = { p with username := some name }
      ∧ get_player_profile ((update_player_profile db u (some name)).1) u =
          some { p with username := some name })
    ∧ (∀ p name?, get_player_profile db u = some p →
        (name? = none ∨ name? = p.username ∨ p.username = none) →
        update_player_profile db u name? = (db, p))
    ∧ (∀ name?, get_player_profile db u = none →
        update_player_profile db u name? =
          ({ db with players := db.players ++ [⟨u, name?⟩] }, ⟨u, name?⟩)) := by
  refine ⟨?_, ?_, ?_⟩
  · intro p stored name h hu hne
    rw [upp_eq_rename db u p stored name h hu hne]
    refine ⟨rfl, ?_⟩
    rw [get_player_profile_updateFirst, h]
    rfl
  · intro p name? h hcase
    cases name? with
    | none => exact upp_eq_none_supplied db u p h
    | some name =>
      rcases hcase with hc | hc | hc
      · cases hc
      · exact upp_eq_same_name db u p name h hc.symm
      · exact upp_eq_no_stored_name db u p name h hc
  · intro name? h
    exact upp_eq_insert db u name? h

/-- Witness for C4's amended theorem: rename Alice to Bob, a no-op upsert
of the same name, and first-contact creation. -/
theorem C4_upsert_behaviour_witness :
    ((update_player_profile aliceDB 1 (some "Bob")).2 = ⟨1, some "Bob"⟩
      ∧ get_player_profile ((update_player_profile aliceDB 1 (some "Bob")).1) 1 =
          some ⟨1, some "Bob"⟩)
    ∧ update_player_profile aliceDB 1 (some "Alice") = (aliceDB, ⟨1, some "Alice"⟩)
    ∧ update_player_profile DB.empty 7 (some "Carol") =
        ({ DB.empty with players := DB.empty.players ++ [⟨7, some "Carol"⟩] },
         ⟨7, some "Carol"⟩) :=
  ⟨(C4_upsert_behaviour aliceDB 1).1 ⟨1, some "Alice"⟩ "Alice" "Bob" rfl rfl (by decide),
   (C4_upsert_behaviour aliceDB 1).2.1 ⟨1, some "Alice"⟩ (some "Alice") rfl
     (Or.inr (Or.inl rfl)),
   (C4_upsert_behaviour DB.empty 7).2.2 (some "Carol") rfl⟩

/-! Increment algebra for claim C9. -/

theorem stepInc_comm (v : Option BsonValue) (a b : StatDelta) :
    stepInc (stepInc v a) b = stepInc (stepInc v b) a := by
  rcases v with _ | x
  · rcases a with i | q <;> rcases b with j | r <;>
      simp only [stepInc, Option.some.injEq, BsonValue.int.injEq, BsonValue.double.injEq] <;>
      push_cast <;> ring
  · rcases x with y | y | t <;> rcases a with i | q <;> rcases b with j | r <;>
      simp only [stepInc, Option.some.injEq, BsonValue.int.injEq, BsonValue.double.injEq] <;>
      push_cast <;> ring

theorem foldl_stepInc_perm (ds₁ ds₂ : List StatDelta) (h : ds₁.Perm ds₂) :
    ∀ v, ds₁.foldl stepInc v = ds₂.foldl stepInc v := by
  induction h with
  | nil => intro v; rfl
  | cons x _ ih => intro v; simp only [List.foldl_cons]; exact ih _
  | swap x y l => intro v; simp only [List.foldl_cons]; rw [stepInc_comm]
  | trans _ _ ih₁ ih₂ => intro v; rw [ih₁, ih₂]

theorem stepInc_notOther (v : Option BsonValue) (δ : StatDelta) (hv : notOther v) :
    notOther (stepInc v δ) := by
  intro t
  rcases v with _ | x
  · rcases δ with i | q <;> simp [stepInc]
  · rcases x with y | y | s
    · rcases δ with i | q <;> simp [stepInc]
    · rcases δ with i | q <;> simp [stepInc]
    · exact absurd rfl (hv s)

theorem ratOfOpt_stepInc (v : Option BsonValue) (δ : StatDelta) (hv : notOther v) :
    ratOfOpt (stepInc v δ) = ratOfOpt v + δ.toRat := by
  rcases v with _ | x
  · rcases δ with i | q <;>
      simp [stepInc, ratOfOpt, StatDelta.toRat, BsonValue.toRat]
  · rcases x with y | y | s
    · rcases δ with i | q <;>
        simp [stepInc, ratOfOpt, StatDelta.toRat, BsonValue.toRat]
    · rcases δ with i | q <;>
        simp [stepInc, ratOfOpt, StatDelta.toRat, BsonValue.toRat]
    · exact absurd rfl (hv s)

theorem ratOfOpt_foldl_stepInc (ds : List StatDelta) : ∀ v, notOther v →
    ratOfOpt (ds.foldl stepInc v) = ratOfOpt v + (ds.map StatDelta.toRat).sum := by
  induction ds with
  | nil => intro v _; simp
  | cons δ rest ih =>
    intro v hv
    simp only [List.foldl_cons, List.map_cons, List.sum_cons]
    rw [ih _ (stepInc_notOther v δ hv), ratOfOpt_stepInc v δ hv]
    ring

theorem getStat_singleStats (i u : Option Nat) (ns stat : String) (v : Option BsonValue) :
    getStat ⟨i, u, ns, singleStats stat v⟩ stat = v := by
  rcases v with _ | w <;> simp [getStat, singleStats]

theorem incValue_of_notOther (v : Option BsonValue) (δ : StatDelta) (hv : notOther v) :
    ∃ w, stepInc v δ = some w ∧ incValue v δ = .ok w := by
  rcases v with _ | x
  · rcases δ with i | q <;> exact ⟨_, rfl, rfl⟩
  · rcases x with y | y | s
    · rcases δ with i | q <;> exact ⟨_, rfl, rfl⟩
    · rcases δ with i | q <;> exact ⟨_, rfl, rfl⟩
    · exact absurd rfl (hv s)

theorem applyIncDoc_singleStats (i u : Option Nat) (ns stat : String)
    (v : Option BsonValue) (δ : StatDelta) (hv : notOther v) :
    applyIncDoc ⟨i, u, ns, singleStats stat v⟩ ⟨stat, δ⟩ =
      .ok ⟨i, u, ns, singleStats stat (stepInc v δ)⟩ := by
  obtain ⟨w, hw, hiv⟩ := incValue_of_notOther v δ hv
  unfold applyIncDoc
  rw [getStat_singleStats, hiv, hw]
  rcases v with _ | x <;> simp [singleStats, insertReplace] <;> try rfl

theorem applyIncs_singleStats (stat : String) (i u : Option Nat) (ns : String)
    (ds : List StatDelta) : ∀ v, notOther v →
    applyIncs ⟨i, u, ns, singleStats stat v⟩ stat ds =
      .ok ⟨i, u, ns, singleStats stat (ds.foldl stepInc v)⟩ := by
  induction ds with
  | nil => intro v _; rfl
  | cons δ rest ih =>
    intro v hv
    unfold applyIncs at ih ⊢
    simp only [List.foldlM_cons]
    rw [applyIncDoc_singleStats i u ns stat v δ hv]
    simp only [List.foldl_cons]
    calc (Except.ok ⟨i, u, ns, singleStats stat (stepInc v δ)⟩ >>= fun d =>
            List.foldlM (fun d δ => applyIncDoc d ⟨stat, δ⟩) d rest)
        = List.foldlM (fun d δ => applyIncDoc d ⟨stat, δ⟩)
            (⟨i, u, ns, singleStats stat (stepInc v δ)⟩ : RawDoc) rest := rfl
      _ = .ok ⟨i, u, ns, singleStats stat (List.foldl stepInc (stepInc v δ) rest)⟩ :=
            ih _ (stepInc_notOther v δ hv)

theorem notOther_none : notOther none := by
  intro t h
  cases h

/-- Claim C9: starting from a fresh (empty) counter document, a sequence of
increments against a single statistic always succeeds, the stored value
read numerically equals the sum of the deltas (an absent field counts as
zero), and any reordering of the deltas produces the identical final
document. -/
theorem C9_increments_sum_and_commute (stat : String) (i u : Option Nat) (ns : String)
    (ds ds' : List StatDelta) (hperm : ds.Perm ds') :
    applyIncs ⟨i, u, ns, []⟩ stat ds = applyIncs ⟨i, u, ns, []⟩ stat ds'
    ∧ ∃ d', applyIncs ⟨i, u, ns, []⟩ stat ds = .ok d'
        ∧ ratOfOpt (getStat d' stat) = (ds.map StatDelta.toRat).sum := by
  have h₁ := applyIncs_singleStats stat i u ns ds none notOther_none
  have h₂ := applyIncs_singleStats stat i u ns ds' none notOther_none
  constructor
  · rw [show (⟨i, u, ns, []⟩ : RawDoc) = ⟨i, u, ns, singleStats stat none⟩ from rfl,
      h₁, h₂, foldl_stepInc_perm ds ds' hperm none]
  · refine ⟨⟨i, u, ns, singleStats stat (ds.foldl stepInc none)⟩, h₁, ?_⟩
    rw [getStat_singleStats, ratOfOpt_foldl_stepInc ds none notOther_none]
    simp [ratOfOpt]

/-- Witness for C9: deltas +1 (integer) and +1/2 (floating) in both orders
against the statistic `wins` of a fresh document. -/
theorem C9_increments_sum_and_commute_witness :
    applyIncs ⟨some 0, some 1, "lobby", []⟩ "wins" [StatDelta.intD 1, StatDelta.floatD (1/2)]
      = applyIncs ⟨some 0, some 1, "lobby", []⟩ "wins" [StatDelta.floatD (1/2), StatDelta.intD 1]
    ∧ ∃ d', applyIncs ⟨some 0, some 1, "lobby", []⟩ "wins"
          [StatDelta.intD 1, StatDelta.floatD (1/2)] = .ok d'
        ∧ ratOfOpt (getStat d' "wins") =
            ([StatDelta.intD 1, StatDelta.floatD (1/2)].map StatDelta.toRat).sum :=
  C9_increments_sum_and_commute "wins" (some 0) (some 1) "lobby"
    [StatDelta.intD 1, StatDelta.floatD (1/2)] [StatDelta.floatD (1/2), StatDelta.intD 1]
    (List.Perm.swap (StatDelta.floatD (1/2)) (StatDelta.intD 1) [])

/-! Preservation lemmas for bundle-upload claims. -/

/-- A `$inc` update changes only the stats field of a document. -/
theorem applyIncDoc_fields (d d₁ : RawDoc) (op : IncOp)
    (h : applyIncDoc d op = .ok d₁) :
    d₁.id? = d.id? ∧ d₁.uuid? = d.uuid? ∧ d₁.ns = d.ns := by
  unfold applyIncDoc at h
  cases hic : incValue (getStat d op.stat) op.delta with
  | error e => rw [hic] at h; cases h
  | ok v =>
    rw [hic] at h
    cases h
    exact ⟨rfl, rfl, rfl⟩

/-- `update_one` leaves a filtered view unchanged when the rewrite happens
entirely outside the filter. -/
theorem filter_updateFirst_eq (p q : α → Bool) (f : α → α) (l : List α)
    (h : ∀ x ∈ l, q x = true → (p x = false ∧ p (f x) = false)) :
    (updateFirst q f l).filter p = l.filter p := by
  induction l with
  | nil => rfl
  | cons x xs ih =>
    by_cases hq : q x
    · obtain ⟨hpx, hpfx⟩ := h x (List.mem_cons_self x xs) hq
      simp [updateFirst, hq, List.filter_cons, hpx, hpfx]
    · simp only [updateFirst, hq, Bool.false_eq_true, if_false, List.filter_cons]
      rw [ih (fun y hy hqy => h y (List.mem_cons_of_mem x hy) hqy)]

/-- Case equation of `ensure_player_stats_document`: schema-shape failure on
a document with no `_id` — the quarantine insert and the report happen, then
the `unwrap` panic aborts before the delete and no fresh document is
inserted. -/
theorem ensure_player_corrupt_noid (db : DB) (u : Nat) (ns : String) (d : RawDoc)
    (hd : (db.playerStats.filter (matchPS u ns)).head? = some d)
    (hv : docValid d = false) (hi : d.id? = none) :
    ensure_player_stats_document db u ns =
      ({ (update_player_profile db u none).1 with
          corruptStats := db.corruptStats ++ [{ d with id? := some db.nextId }],
          nextId := db.nextId + 1,
          reports := db.reports ++ [corruptReport ns false db.nextId],
          events := db.events ++ [Event.insertQuarantine db.nextId,
            Event.reportSent db.nextId] }, .error .unwrapNone) := by
  unfold ensure_player_stats_document handle_broken_player_stats_document
    handle_broken_document
  simp [hd, hv, hi, update_player_profile_playerStats, update_player_profile_nextId,
    update_player_profile_events, update_player_profile_corruptStats,
    update_player_profile_reports, update_player_profile_warns,
    update_player_profile_globalStats]

/-- The possible shapes of the player-stats collection after an ensure
call: untouched, fresh append, or repair-delete plus fresh append of a
document whose key was the ensured one. -/
theorem ensure_playerStats_cases (db : DB) (u : Nat) (ns : String) :
    (ensure_player_stats_document db u ns).1.playerStats = db.playerStats
    ∨ (ensure_player_stats_document db u ns).1.playerStats =
        db.playerStats ++ [⟨some db.nextId, some u, ns, []⟩]
    ∨ ∃ d i, d ∈ db.playerStats ∧ matchPS u ns d = true ∧ d.id? = some i ∧
        (ensure_player_stats_document db u ns).1.playerStats =
          deleteFirst (fun x => x.id? == some i) db.playerStats
            ++ [⟨some db.nextId, some u, ns, []⟩] := by
  cases hd : (db.playerStats.filter (matchPS u ns)).head? with
  | none =>
    rw [ensure_player_absent db u ns hd]
    exact Or.inr (Or.inl rfl)
  | some d =>
    have hdm : d ∈ db.playerStats.filter (matchPS u ns) :=
      List.mem_of_mem_head? (Option.mem_def.mpr hd)
    have hmem : d ∈ db.playerStats := List.mem_of_mem_filter hdm
    have hmatch : matchPS u ns d = true := List.of_mem_filter hdm
    cases hv : docValid d with
    | true =>
      rw [ensure_player_valid db u ns d hd hv, update_player_profile_playerStats]
      exact Or.inl rfl
    | false =>
      cases hi : d.id? with
      | none =>
        rw [ensure_player_corrupt_noid db u ns d hd hv hi]
        exact Or.inl (update_player_profile_playerStats db u none)
      | some i =>
        rw [ensure_player_corrupt db u ns d i hd hv hi]
        exact Or.inr (Or.inr ⟨d, i, hmem, hmatch, hi, rfl⟩)

/-- An ensure call for one player leaves every other player's documents
untouched (given unique `_id`s, so the repair delete cannot hit another
player's document). -/
theorem ensure_preserves_other_uuid (db : DB) (u : Nat) (ns : String) (v : Nat)
    (hvu : v ≠ u) (hids : idsDistinct db.playerStats) :
    (ensure_player_stats_document db u ns).1.playerStats.filter
        (fun d => d.uuid? == some v)
      = db.playerStats.filter (fun d => d.uuid? == some v) := by
  rcases ensure_playerStats_cases db u ns with h | h | ⟨d, i, hmem, hmatch, hi, h⟩
  · rw [h]
  · rw [h, List.filter_append]
    have : ((⟨some db.nextId, some u, ns, []⟩ : RawDoc).uuid? == some v) = false := by
      simp
      exact fun hc => hvu hc.symm
    simp [List.filter_cons, this]
  · rw [h, List.filter_append]
    obtain ⟨l₁, l₂, hsplit, hdel, _⟩ :=
      deleteFirst_id_decomp db.playerStats d i hids hmem hi
    have hdu : (d.uuid? == some v) = false := by
      unfold matchPS at hmatch
      simp only [Bool.and_eq_true, beq_iff_eq] at hmatch
      simp [hmatch.1]
      exact fun hc => hvu hc.symm
    have : ((⟨some db.nextId, some u, ns, []⟩ : RawDoc).uuid? == some v) = false := by
      simp
      exact fun hc => hvu hc.symm
    rw [hdel, hsplit]
    simp [List.filter_append, List.filter_cons, hdu, this]

/-- One faulty-or-successful increment write for one player leaves every
other player's documents untouched. -/
theorem psUpdateOne_preserves_other (faults : FaultSet) (db : DB) (b : Nat)
    (ns sn : String) (st : StatDelta) (v : Nat) (hvb : v ≠ b) :
    (player_stats_update_one faults db b ns sn st).1.playerStats.filter
        (fun d => d.uuid? == some v)
      = db.playerStats.filter (fun d => d.uuid? == some v) := by
  unfold player_stats_update_one
  by_cases hf : (b, sn) ∈ faults
  · simp [hf]
  · simp only [hf, if_false]
    cases hd : (db.playerStats.filter (matchPS b ns)).head? with
    | none => rfl
    | some d =>
      cases ha : applyIncDoc d ⟨sn, st⟩ with
      | error e => simp [ha]
      | ok d₁ =>
        simp only [ha]
        apply filter_updateFirst_eq
        intro x _ hqx
        have hxu : x.uuid? = some b := by
          unfold matchPS at hqx
          simp only [Bool.and_eq_true, beq_iff_eq] at hqx
          exact hqx.1
        obtain ⟨_, hu1, _⟩ := applyIncDoc_fields d d₁ ⟨sn, st⟩ ha
        have hdu : d.uuid? = some b := by
          have hdm : d ∈ db.playerStats.filter (matchPS b ns) :=
            List.mem_of_mem_head? (Option.mem_def.mpr hd)
          have hmatch : matchPS b ns d = true := List.of_mem_filter hdm
          unfold matchPS at hmatch
          simp only [Bool.and_eq_true, beq_iff_eq] at hmatch
          exact hmatch.1
        constructor
        · simp [hxu]
          exact fun hc => hvb hc.symm
        · simp [hu1, hdu]
          exact fun hc => hvb hc.symm

/-- A player's whole increment loop leaves every other player's documents
untouched. -/
theorem uploadPlayerIncs_preserves_other (faults : FaultSet) (b : Nat) (ns : String)
    (v : Nat) (hvb : v ≠ b) (ss : List (String × StatDelta)) : ∀ db : DB,
    (uploadPlayerIncs faults db b ns ss).1.playerStats.filter
        (fun d => d.uuid? == some v)
      = db.playerStats.filter (fun d => d.uuid? == some v) := by
  induction ss with
  | nil => intro db; rfl
  | cons hd tl ih =>
    intro db
    obtain ⟨sn, st⟩ := hd
    unfold uploadPlayerIncs
    cases hone : player_stats_update_one faults db b ns sn st with
    | mk db' r =>
      have hstep : db'.playerStats.filter (fun d => d.uuid? == some v)
          = db.playerStats.filter (fun d => d.uuid? == some v) := by
        have := psUpdateOne_preserves_other faults db b ns sn st v hvb
        rw [hone] at this
        exact this
      cases r with
      | ok _ => simpa [hstep] using (ih db').trans hstep
      | error e => simpa using hstep

/-- Processing one player's bundle entry (ensure plus increments) leaves
every other player's documents untouched, given unique document ids. -/
theorem processPlayer_preserves_other (faults : FaultSet) (db : DB) (ns : String)
    (b : Nat) (sb : List (String × StatDelta)) (v : Nat) (hvb : v ≠ b)
    (hids : idsDistinct db.playerStats) :
    (processPlayer faults db ns b sb).1.playerStats.filter
        (fun d => d.uuid? == some v)
      = db.playerStats.filter (fun d => d.uuid? == some v) := by
  unfold processPlayer
  cases he : ensure_player_stats_document db b ns with
  | mk dbe r =>
    have hens : dbe.playerStats.filter (fun d => d.uuid? == some v)
        = db.playerStats.filter (fun d => d.uuid? == some v) := by
      have := ensure_preserves_other_uuid db b ns v hvb hids
      rw [he] at this
      exact this
    cases r with
    | error e => simpa using hens
    | ok _ =>
      simp only
      rw [uploadPlayerIncs_preserves_other faults b ns v hvb sb dbe]
      exact hens

/-- Claim C3 (counterexample): in a two-player bundle where the failing
player (2) is processed first, the whole upload aborts with the store
error and the other, independent player (1) never receives a document or
an increment — its update does not take effect. -/
theorem C3_failure_blocks_other_player :
    (upload_stats_bundle failFaults DB.empty failBundle).2 = .error .fault
    ∧ (upload_stats_bundle failFaults DB.empty failBundle).1.playerStats.filter
        (matchPS 1 "survival") = [] := by
  exact ⟨rfl, by decide⟩

/-- Claim C3 (amended): a store-level failure for one player aborts the
rest of the bundle (the bundle fails as a whole, without rollback), but
the increments of a player processed before the failure remain in effect:
with player `a` processed first and succeeding and player `b` failing,
the upload ends in `b`'s error state, in which `a`'s documents are exactly
as `a`'s processing left them. -/
theorem C3_no_rollback_before_failure (faults : FaultSet) (db db₁ db₂ : DB)
    (ns : String) (a b : Nat) (sa sb : List (String × StatDelta)) (e : StoreErr)
    (hab : a ≠ b)
    (h₁ : processPlayer faults db ns a sa = (db₁, .ok ()))
    (h₂ : processPlayer faults db₁ ns b sb = (db₂, .error e))
    (hids : idsDistinct db₁.playerStats) :
    upload_stats_bundle faults db ⟨ns, ⟨[(a, sa), (b, sb)], none⟩⟩ = (db₂, .error e)
    ∧ db₂.playerStats.filter (fun d => d.uuid? == some a) =
        db₁.playerStats.filter (fun d => d.uuid? == some a) := by
  constructor
  · unfold upload_stats_bundle uploadPlayers
    simp only [h₁]
    unfold uploadPlayers
    simp only [h₂]
  · have := processPlayer_preserves_other faults db₁ ns b sb a hab hids
    rw [h₂] at this
    exact this

/-- Witness for C3's amended theorem: player 1 processed first lands its
`kills` increment even though player 2's write fails. -/
theorem C3_no_rollback_before_failure_witness :
    upload_stats_bundle failFaults DB.empty
        ⟨"survival", ⟨[(1, [("kills", StatDelta.intD 1)]),
          (2, [("kills", StatDelta.intD 1)])], none⟩⟩ = (dbAB, .error .fault)
    ∧ dbAB.playerStats.filter (fun d => d.uuid? == some 1) =
        dbA.playerStats.filter (fun d => d.uuid? == some 1) :=
  C3_no_rollback_before_failure failFaults DB.empty dbA dbAB "survival" 1 2
    [("kills", StatDelta.intD 1)] [("kills", StatDelta.intD 1)] .fault
    (by decide) rfl rfl (by unfold idsDistinct; decide)

/-! Single-live-document lemmas for the idempotence claim. -/

/-- When no two list elements can both satisfy `p`, a non-empty filter is a
singleton. -/
theorem head_filter_single (p : α → Bool) (l : List α) (d : α)
    (hpw : l.Pairwise (fun a b => ¬(p a = true ∧ p b = true)))
    (hd : (l.filter p).head? = some d) : l.filter p = [d] := by
  cases hf : l.filter p with
  | nil => rw [hf] at hd; cases hd
  | cons x t =>
    rw [hf] at hd
    simp only [List.head?_cons, Option.some.injEq] at hd
    subst hd
    cases t with
    | nil => rfl
    | cons y t' =>
      exfalso
      have hp2 : (l.filter p).Pairwise (fun a b => ¬(p a = true ∧ p b = true)) :=
        hpw.filter p
      rw [hf] at hp2
      have hxy := (List.pairwise_cons.mp hp2).1 y (List.mem_cons_self y t')
      have hx : p x = true := by
        have hm : x ∈ l.filter p := by rw [hf]; exact List.mem_cons_self _ _
        exact List.of_mem_filter hm
      have hy : p y = true := by
        have hm : y ∈ l.filter p := by
          rw [hf]
          exact List.mem_cons_of_mem _ (List.mem_cons_self y t')
        exact List.of_mem_filter hm
      exact hxy ⟨hx, hy⟩

/-- At-most-one-per-key turns into: no two documents both match a player
filter. -/
theorem pairwise_not_both_matchPS (l : List RawDoc) (u : Nat) (ns : String)
    (hk : keysDistinctPS l) :
    l.Pairwise (fun a b => ¬(matchPS u ns a = true ∧ matchPS u ns b = true)) := by
  refine hk.imp ?_
  intro a b h hc
  obtain ⟨ha, hb⟩ := hc
  unfold matchPS at ha hb
  simp only [Bool.and_eq_true, beq_iff_eq] at ha hb
  exact h ⟨ha.1.trans hb.1.symm, ha.2.trans hb.2.symm⟩

/-- At-most-one-per-key turns into: no two documents both match a global
filter. -/
theorem pairwise_not_both_matchGS (l : List RawDoc) (ns : String)
    (hk : keysDistinctGS l) :
    l.Pairwise (fun a b => ¬(matchGS ns a = true ∧ matchGS ns b = true)) := by
  refine hk.imp ?_
  intro a b h hc
  obtain ⟨ha, hb⟩ := hc
  unfold matchGS at ha hb
  simp only [beq_iff_eq] at ha hb
  exact h (ha.trans hb.symm)

/-- Second-call no-op: with a profile present and a single valid matching
document, a player ensure changes nothing. -/
theorem ensure_player_noop (db : DB) (u : Nat) (ns : String) (d : RawDoc)
    (hprof : ∃ p, get_player_profile db u = some p)
    (hd : (db.playerStats.filter (matchPS u ns)).head? = some d)
    (hv : docValid d = true) :
    ensure_player_stats_document db u ns = (db, .ok ()) := by
  obtain ⟨p, hp⟩ := hprof
  rw [ensure_player_valid db u ns d hd hv, upp_eq_none_supplied db u p hp]

/-- Claim C5: under the data-model invariants (every stored document has a
unique `_id`, at most one live document per key), ensure_document succeeds,
leaves exactly one live counter document for the (key, namespace) pair,
and an immediately repeated call returns the very same state — the second
call makes no change beyond the first — for both player and global
scope. -/
theorem C5_ensure_idempotent (db : DB) (u : Nat) (ns : String) (hinv : StoreInv db) :
    (∃ db₁, ensure_player_stats_document db u ns = (db₁, .ok ())
      ∧ (liveDocs db₁ u ns).length = 1
      ∧ ensure_player_stats_document db₁ u ns = (db₁, .ok ()))
    ∧ (∃ db₂, ensure_global_stats_document db ns = (db₂, .ok ())
      ∧ (liveGlobalDocs db₂ ns).length = 1
      ∧ ensure_global_stats_document db₂ ns = (db₂, .ok ())) := by
  constructor
  · have hfreshm : matchPS u ns (⟨some db.nextId, some u, ns, []⟩ : RawDoc) = true := by
      simp [matchPS]
    cases hd : (db.playerStats.filter (matchPS u ns)).head? with
    | none =>
      have hnil : db.playerStats.filter (matchPS u ns) = [] :=
        List.head?_eq_none_iff.mp hd
      refine ⟨_, ensure_player_absent db u ns hd, ?_, ?_⟩
      · show ((db.playerStats ++ [(⟨some db.nextId, some u, ns, []⟩ : RawDoc)]).filter
            (matchPS u ns)).length = 1
        rw [List.filter_append, hnil]
        simp [hfreshm]
      · refine ensure_player_noop _ u ns (⟨some db.nextId, some u, ns, []⟩ : RawDoc) ?_ ?_ rfl
        · exact get_player_profile_after_upsert db u none
        · show ((db.playerStats ++ [(⟨some db.nextId, some u, ns, []⟩ : RawDoc)]).filter
              (matchPS u ns)).head? = _
          rw [List.filter_append, hnil]
          simp [hfreshm]
    | some d =>
      have hdm : d ∈ db.playerStats.filter (matchPS u ns) :=
        List.mem_of_mem_head? (Option.mem_def.mpr hd)
      have hmem : d ∈ db.playerStats := List.mem_of_mem_filter hdm
      have hmatch : matchPS u ns d = true := List.of_mem_filter hdm
      have hsingle : db.playerStats.filter (matchPS u ns) = [d] :=
        head_filter_single _ _ _ (pairwise_not_both_matchPS _ u ns hinv.psKeys) hd
      cases hv : docValid d with
      | true =>
        refine ⟨_, ensure_player_valid db u ns d hd hv, ?_, ?_⟩
        · show ((update_player_profile db u none).1.playerStats.filter
              (matchPS u ns)).length = 1
          rw [update_player_profile_playerStats, hsingle]
          rfl
        · refine ensure_player_noop _ u ns d ?_ ?_ hv
          · exact get_player_profile_after_upsert db u none
          · show ((update_player_profile db u none).1.playerStats.filter
                (matchPS u ns)).head? = some d
            rw [update_player_profile_playerStats]
            exact hd
      | false =>
        obtain ⟨i, hi⟩ := Option.isSome_iff_exists.mp (hinv.psIds d hmem)
        obtain ⟨l₁, l₂, hsplit, hdel, _⟩ :=
          deleteFirst_id_decomp db.playerStats d i hinv.psIdsD hmem hi
        have h1 : db.playerStats.filter (matchPS u ns)
            = l₁.filter (matchPS u ns) ++ d :: l₂.filter (matchPS u ns) := by
          rw [hsplit, List.filter_append, List.filter_cons]
          simp [hmatch]
        rw [hsingle] at h1
        have hlen := congrArg List.length h1
        simp only [List.length_append, List.length_cons, List.length_nil] at hlen
        have hf1 : l₁.filter (matchPS u ns) = [] :=
          List.eq_nil_of_length_eq_zero (by omega)
        have hf2 : l₂.filter (matchPS u ns) = [] :=
          List.eq_nil_of_length_eq_zero (by omega)
        have hdelf : (deleteFirst (fun x => x.id? == some i) db.playerStats).filter
            (matchPS u ns) = [] := by
          rw [hdel, List.filter_append, hf1, hf2]
          rfl
        refine ⟨_, ensure_player_corrupt db u ns d i hd hv hi, ?_, ?_⟩
        · show ((deleteFirst (fun x => x.id? == some i) db.playerStats
              ++ [(⟨some db.nextId, some u, ns, []⟩ : RawDoc)]).filter (matchPS u ns)).length = 1
          rw [List.filter_append, hdelf]
          simp [hfreshm]
        · refine ensure_player_noop _ u ns (⟨some db.nextId, some u, ns, []⟩ : RawDoc) ?_ ?_ rfl
          · exact get_player_profile_after_upsert db u none
          · show ((deleteFirst (fun x => x.id? == some i) db.playerStats
                ++ [(⟨some db.nextId, some u, ns, []⟩ : RawDoc)]).filter (matchPS u ns)).head? = _
            rw [List.filter_append, hdelf]
            simp [hfreshm]
  · have hfreshm : matchGS ns (⟨some db.nextId, none, ns, []⟩ : RawDoc) = true := by
      simp [matchGS]
    cases hd : (db.globalStats.filter (matchGS ns)).head? with
    | none =>
      have hnil : db.globalStats.filter (matchGS ns) = [] :=
        List.head?_eq_none_iff.mp hd
      refine ⟨_, ensure_global_absent db ns hd, ?_, ?_⟩
      · show ((db.globalStats ++ [(⟨some db.nextId, none, ns, []⟩ : RawDoc)]).filter
            (matchGS ns)).length = 1
        rw [List.filter_append, hnil]
        simp [hfreshm]
      · refine ensure_global_valid _ ns (⟨some db.nextId, none, ns, []⟩ : RawDoc) ?_ rfl
        show ((db.globalStats ++ [(⟨some db.nextId, none, ns, []⟩ : RawDoc)]).filter
            (matchGS ns)).head? = _
        rw [List.filter_append, hnil]
        simp [hfreshm]
    | some d =>
      have hdm : d ∈ db.globalStats.filter (matchGS ns) :=
        List.mem_of_mem_head? (Option.mem_def.mpr hd)
      have hmem : d ∈ db.globalStats := List.mem_of_mem_filter hdm
      have hmatch : matchGS ns d = true := List.of_mem_filter hdm
      have hsingle : db.globalStats.filter (matchGS ns) = [d] :=
        head_filter_single _ _ _ (pairwise_not_both_matchGS _ ns hinv.gsKeys) hd
      cases hv : globalDocValid d with
      | true =>
        refine ⟨_, ensure_global_valid db ns d hd hv, ?_, ?_⟩
        · show ((db.globalStats.filter (matchGS ns)).length = 1)
          rw [hsingle]
          rfl
        · exact ensure_global_valid db ns d hd hv
      | false =>
        obtain ⟨i, hi⟩ := Option.isSome_iff_exists.mp (hinv.gsIds d hmem)
        obtain ⟨l₁, l₂, hsplit, hdel, _⟩ :=
          deleteFirst_id_decomp db.globalStats d i hinv.gsIdsD hmem hi
        have h1 : db.globalStats.filter (matchGS ns)
            = l₁.filter (matchGS ns) ++ d :: l₂.filter (matchGS ns) := by
          rw [hsplit, List.filter_append, List.filter_cons]
          simp [hmatch]
        rw [hsingle] at h1
        have hlen := congrArg List.length h1
        simp only [List.length_append, List.length_cons, List.length_nil] at hlen
        have hf1 : l₁.filter (matchGS ns) = [] :=
          List.eq_nil_of_length_eq_zero (by omega)
        have hf2 : l₂.filter (matchGS ns) = [] :=
          List.eq_nil_of_length_eq_zero (by omega)
        have hdelf : (deleteFirst (fun x => x.id? == some i) db.globalStats).filter
            (matchGS ns) = [] := by
          rw [hdel, List.filter_append, hf1, hf2]
          rfl
        refine ⟨_, ensure_global_corrupt db ns d i hd hv hi, ?_, ?_⟩
        · show ((deleteFirst (fun x => x.id? == some i) db.globalStats
              ++ [(⟨some db.nextId, none, ns, []⟩ : RawDoc)]).filter (matchGS ns)).length = 1
          rw [List.filter_append, hdelf]
          simp [hfreshm]
        · refine ensure_global_valid _ ns (⟨some db.nextId, none, ns, []⟩ : RawDoc) ?_ rfl
          show ((deleteFirst (fun x => x.id? == some i) db.globalStats
              ++ [(⟨some db.nextId, none, ns, []⟩ : RawDoc)]).filter (matchGS ns)).head? = _
          rw [List.filter_append, hdelf]
          simp [hfreshm]

/-- Witness for C5 at the empty store. -/
theorem C5_ensure_idempotent_witness :
    (∃ db₁, ensure_player_stats_document DB.empty 1 "lobby" = (db₁, .ok ())
      ∧ (liveDocs db₁ 1 "lobby").length = 1
      ∧ ensure_player_stats_document db₁ 1 "lobby" = (db₁, .ok ()))
    ∧ (∃ db₂, ensure_global_stats_document DB.empty "lobby" = (db₂, .ok ())
      ∧ (liveGlobalDocs db₂ "lobby").length = 1
      ∧ ensure_global_stats_document db₂ "lobby" = (db₂, .ok ())) :=
  C5_ensure_idempotent DB.empty 1 "lobby"
    ⟨fun d hd => absurd hd (List.not_mem_nil d), List.Pairwise.nil, List.Pairwise.nil,
     fun d hd => absurd hd (List.not_mem_nil d), List.Pairwise.nil, List.Pairwise.nil⟩

/-! Referential-linkage preservation lemmas. -/

/-- The ensure call never touches the profile collection after its initial
upsert. -/
theorem ensure_player_players (db : DB) (u : Nat) (ns : String) :
    (ensure_player_stats_document db u ns).1.players
      = (update_player_profile db u none).1.players := by
  cases hd : (db.playerStats.filter (matchPS u ns)).head? with
  | none => rw [ensure_player_absent db u ns hd]
  | some d =>
    cases hv : docValid d with
    | true => rw [ensure_player_valid db u ns d hd hv]
    | false =>
      cases hi : d.id? with
      | some i => rw [ensure_player_corrupt db u ns d i hd hv hi]
      | none => rw [ensure_player_corrupt_noid db u ns d hd hv hi]

/-- A profile lookup success puts the uuid among the profile rows. -/
theorem mem_profileUuids_of_get (db : DB) (u : Nat) (p : PlayerProfile)
    (h : get_player_profile db u = some p) : u ∈ profileUuids db := by
  have hm : p ∈ db.players.filter (fun q => q.uuid == u) :=
    List.mem_of_mem_head? (Option.mem_def.mpr h)
  have hp : p ∈ db.players := List.mem_of_mem_filter hm
  have hu := List.of_mem_filter hm
  simp only [beq_iff_eq] at hu
  exact List.mem_map.mpr ⟨p, hp, hu⟩

/-- The profile upsert preserves referential linkage (it never removes
profiles and never touches counter documents). -/
theorem profileLinked_upsert (db : DB) (u : Nat) (s : Option String)
    (h : profileLinked db) : profileLinked (update_player_profile db u s).1 := by
  intro d hd
  rw [update_player_profile_playerStats] at hd
  obtain ⟨w, hw, hwin⟩ := h d hd
  exact ⟨w, hw, profileUuids_mono_upsert db u s w hwin⟩

/-- Profile rows only grow across a player ensure. -/
theorem profileUuids_mono_ensure (db : DB) (u : Nat) (ns : String) (v : Nat)
    (hv : v ∈ profileUuids db) :
    v ∈ profileUuids (ensure_player_stats_document db u ns).1 := by
  have heq : profileUuids (ensure_player_stats_document db u ns).1
      = profileUuids (update_player_profile db u none).1 := by
    unfold profileUuids
    rw [ensure_player_players]
  rw [heq]
  exact profileUuids_mono_upsert db u none v hv

/-- The ensured identity has a profile row after the ensure call. -/
theorem ensured_uuid_mem_profileUuids (db : DB) (u : Nat) (ns : String) :
    u ∈ profileUuids (ensure_player_stats_document db u ns).1 := by
  have heq : profileUuids (ensure_player_stats_document db u ns).1
      = profileUuids (update_player_profile db u none).1 := by
    unfold profileUuids
    rw [ensure_player_players]
  rw [heq]
  obtain ⟨p, hp⟩ := get_player_profile_after_upsert db u none
  exact mem_profileUuids_of_get _ u p hp

/-- A player ensure preserves referential linkage. -/
theorem profileLinked_ensure (db : DB) (u : Nat) (ns : String)
    (h : profileLinked db) :
    profileLinked (ensure_player_stats_document db u ns).1 := by
  have hold : ∀ d ∈ db.playerStats, ∃ w, d.uuid? = some w
      ∧ w ∈ profileUuids (ensure_player_stats_document db u ns).1 := by
    intro d hd
    obtain ⟨w, hw, hwin⟩ := h d hd
    exact ⟨w, hw, profileUuids_mono_ensure db u ns w hwin⟩
  have hu := ensured_uuid_mem_profileUuids db u ns
  intro d hd
  rcases ensure_playerStats_cases db u ns with hc | hc | ⟨d0, i, _, _, _, hc⟩
  · rw [hc] at hd
    exact hold d hd
  · rw [hc] at hd
    rcases List.mem_append.mp hd with hd | hd
    · exact hold d hd
    · rcases List.mem_singleton.mp hd with rfl
      exact ⟨u, rfl, hu⟩
  · rw [hc] at hd
    rcases List.mem_append.mp hd with hd | hd
    · exact hold d (mem_deleteFirst _ _ _ hd)
    · rcases List.mem_singleton.mp hd with rfl
      exact ⟨u, rfl, hu⟩

/-- An increment write never touches the profile collection. -/
theorem psUpdateOne_players (faults : FaultSet) (db : DB) (b : Nat)
    (ns sn : String) (st : StatDelta) :
    (player_stats_update_one faults db b ns sn st).1.players = db.players := by
  simp only [player_stats_update_one]
  (repeat' split) <;> rfl

/-- One increment write preserves referential linkage. -/
theorem profileLinked_psUpdateOne (faults : FaultSet) (db : DB) (b : Nat)
    (ns sn : String) (st : StatDelta) (h : profileLinked db) :
    profileLinked (player_stats_update_one faults db b ns sn st).1 := by
  have hpu : profileUuids (player_stats_update_one faults db b ns sn st).1
      = profileUuids db := by
    unfold profileUuids
    rw [psUpdateOne_players]
  unfold player_stats_update_one at hpu ⊢
  by_cases hf : (b, sn) ∈ faults
  · simp only [hf, if_true]
    exact h
  · simp only [hf, if_false] at hpu ⊢
    cases hd : (db.playerStats.filter (matchPS b ns)).head? with
    | none => exact h
    | some d =>
      cases ha : applyIncDoc d ⟨sn, st⟩ with
      | error e => simp only [ha]; exact h
      | ok d₁ =>
        simp only [ha]
        intro x hx
        simp only at hx
        rcases mem_updateFirst _ _ _ x hx with hx | ⟨y, _, hxy⟩
        · exact h x hx
        · have hdm : d ∈ db.playerStats :=
            List.mem_of_mem_filter (List.mem_of_mem_head? (Option.mem_def.mpr hd))
          obtain ⟨_, hu1, _⟩ := applyIncDoc_fields d d₁ ⟨sn, st⟩ ha
          obtain ⟨w, hw, hwin⟩ := h d hdm
          subst hxy
          exact ⟨w, hu1.trans hw, hwin⟩

/-- A player's increment loop preserves referential linkage. -/
theorem profileLinked_uploadPlayerIncs (faults : FaultSet) (b : Nat) (ns : String)
    (ss : List (String × StatDelta)) : ∀ db : DB, profileLinked db →
    profileLinked (uploadPlayerIncs faults db b ns ss).1 := by
  induction ss with
  | nil => intro db h; exact h
  | cons hd tl ih =>
    intro db h
    obtain ⟨sn, st⟩ := hd
    unfold uploadPlayerIncs
    cases hone : player_stats_update_one faults db b ns sn st with
    | mk db' r =>
      have hstep : profileLinked db' := by
        have := profileLinked_psUpdateOne faults db b ns sn st h
        rw [hone] at this
        exact this
      cases r with
      | ok _ => exact ih db' hstep
      | error e => exact hstep

/-- Case equation of `ensure_global_stats_document`: schema-shape failure
on a document with no `_id` — quarantine and report happen, the `unwrap`
panic aborts before the delete, no fresh document. -/
theorem ensure_global_corrupt_noid (db : DB) (ns : String) (d : RawDoc)
    (hd : (db.globalStats.filter (matchGS ns)).head? = some d)
    (hv : globalDocValid d = false) (hi : d.id? = none) :
    ensure_global_stats_document db ns =
      ({ db with
          corruptStats := db.corruptStats ++ [{ d with id? := some db.nextId }],
          nextId := db.nextId + 1,
          reports := db.reports ++ [corruptReport ns true db.nextId],
          events := db.events ++ [Event.insertQuarantine db.nextId,
            Event.reportSent db.nextId] }, .error .unwrapNone) := by
  unfold ensure_global_stats_document handle_broken_global_stats_document
    handle_broken_document
  simp [hd, hv, hi]

/-- The global ensure path touches neither profiles nor player counters. -/
theorem ensure_global_untouched (db : DB) (ns : String) :
    (ensure_global_stats_document db ns).1.players = db.players
    ∧ (ensure_global_stats_document db ns).1.playerStats = db.playerStats := by
  cases hd : (db.globalStats.filter (matchGS ns)).head? with
  | none => rw [ensure_global_absent db ns hd]; exact ⟨rfl, rfl⟩
  | some d =>
    cases hv : globalDocValid d with
    | true => rw [ensure_global_valid db ns d hd hv]; exact ⟨rfl, rfl⟩
    | false =>
      cases hi : d.id? with
      | some i => rw [ensure_global_corrupt db ns d i hd hv hi]; exact ⟨rfl, rfl⟩
      | none => rw [ensure_global_corrupt_noid db ns d hd hv hi]; exact ⟨rfl, rfl⟩

/-- A global increment write touches neither profiles nor player
counters. -/
theorem gsUpdateOne_untouched (db : DB) (ns sn : String) (st : StatDelta) :
    (global_stats_update_one db ns sn st).1.players = db.players
    ∧ (global_stats_update_one db ns sn st).1.playerStats = db.playerStats := by
  simp only [global_stats_update_one]
  constructor <;> ((repeat' split) <;> rfl)

/-- The global increment loop preserves referential linkage. -/
theorem profileLinked_uploadGlobalIncs (ns : String)
    (ss : List (String × StatDelta)) : ∀ db : DB, profileLinked db →
    profileLinked (uploadGlobalIncs db ns ss).1 := by
  induction ss with
  | nil => intro db h; exact h
  | cons hd tl ih =>
    intro db h
    obtain ⟨sn, st⟩ := hd
    unfold uploadGlobalIncs
    cases hone : global_stats_update_one db ns sn st with
    | mk db' r =>
      have hstep : profileLinked db' := by
        intro d hd'
        obtain ⟨hpl, hps⟩ := gsUpdateOne_untouched db ns sn st
        rw [hone] at hpl hps
        simp only at hpl hps
        rw [hps] at hd'
        obtain ⟨w, hw, hwin⟩ := h d hd'
        refine ⟨w, hw, ?_⟩
        unfold profileUuids at hwin ⊢
        rw [hpl]
        exact hwin
      cases r with
      | ok _ => exact ih db' hstep
      | error e => exact hstep

/-- Processing one player's bundle entry preserves referential linkage. -/
theorem profileLinked_processPlayer (faults : FaultSet) (db : DB) (ns : String)
    (b : Nat) (sb : List (String × StatDelta)) (h : profileLinked db) :
    profileLinked (processPlayer faults db ns b sb).1 := by
  unfold processPlayer
  cases he : ensure_player_stats_document db b ns with
  | mk dbe r =>
    have hens : profileLinked dbe := by
      have := profileLinked_ensure db b ns h
      rw [he] at this
      exact this
    cases r with
    | error e => exact hens
    | ok _ => exact profileLinked_uploadPlayerIncs faults b ns sb dbe hens

/-- The per-player loop preserves referential linkage. -/
theorem profileLinked_uploadPlayers (faults : FaultSet) (ns : String)
    (entries : List (Nat × List (String × StatDelta))) : ∀ db : DB, profileLinked db →
    profileLinked (uploadPlayers faults db ns entries).1 := by
  induction entries with
  | nil => intro db h; exact h
  | cons hd tl ih =>
    intro db h
    obtain ⟨b, sb⟩ := hd
    unfold uploadPlayers
    cases hone : processPlayer faults db ns b sb with
    | mk db' r =>
      have hstep : profileLinked db' := by
        have := profileLinked_processPlayer faults db ns b sb h
        rw [hone] at this
        exact this
      cases r with
      | ok _ => exact ih db' hstep
      | error e => exact hstep

/-- A whole bundle upload preserves referential linkage. -/
theorem profileLinked_upload (faults : FaultSet) (db : DB) (bundle : GameStatsBundle)
    (h : profileLinked db) :
    profileLinked (upload_stats_bundle faults db bundle).1 := by
  unfold upload_stats_bundle
  cases hps : uploadPlayers faults db bundle.ns bundle.stats.players with
  | mk db' r =>
    have hstep : profileLinked db' := by
      have := profileLinked_uploadPlayers faults bundle.ns bundle.stats.players db h
      rw [hps] at this
      exact this
    cases r with
    | error e => exact hstep
    | ok _ =>
      cases hg : bundle.stats.global with
      | none => exact hstep
      | some global =>
        simp only
        cases heg : ensure_global_stats_document db' bundle.ns with
        | mk db'' r' =>
          have hstep' : profileLinked db'' := by
            intro d hd'
            obtain ⟨hpl, hps'⟩ := ensure_global_untouched db' bundle.ns
            rw [heg] at hpl hps'
            simp only at hpl hps'
            rw [hps'] at hd'
            obtain ⟨w, hw, hwin⟩ := hstep d hd'
            refine ⟨w, hw, ?_⟩
            unfold profileUuids at hwin ⊢
            rw [hpl]
            exact hwin
          cases r' with
          | error e => exact hstep'
          | ok _ => exact profileLinked_uploadGlobalIncs bundle.ns global db'' hstep'

/-- Claim C7: every player-scope ensure performs the profile upsert before
any counter write (the profile rows after an ensure are exactly those the
initial upsert produced), and referential linkage — every player counter
document carries the uuid of an existing profile — is preserved by every
sequence of requests. -/
theorem C7_referential_linkage (db : DB) (ops : List Op) (hdb : profileLinked db) :
    (∀ dbx : DB, ∀ u : Nat, ∀ ns : String,
      (ensure_player_stats_document dbx u ns).1.players
        = (update_player_profile dbx u none).1.players)
    ∧ profileLinked (applyOps db ops) := by
  constructor
  · intro dbx u ns
    exact ensure_player_players dbx u ns
  · induction ops generalizing db with
    | nil => exact hdb
    | cons op rest ih =>
      cases op with
      | updateProfile u name =>
        exact ih _ (profileLinked_upsert db u (some name) hdb)
      | uploadBundle faults bundle =>
        exact ih _ (profileLinked_upload faults db bundle hdb)

/-- Witness for C7: the empty store, one profile update and one two-player
bundle upload. -/
theorem C7_referential_linkage_witness :
    (∀ dbx : DB, ∀ u : Nat, ∀ ns : String,
      (ensure_player_stats_document dbx u ns).1.players
        = (update_player_profile dbx u none).1.players)
    ∧ profileLinked (applyOps DB.empty
        [Op.updateProfile 1 "Alice", Op.uploadBundle failFaults failBundle]) :=
  C7_referential_linkage DB.empty
    [Op.updateProfile 1 "Alice", Op.uploadBundle failFaults failBundle]
    (fun d hd => absurd hd (List.not_mem_nil d))

end Nucleoid
